import Mathlib

/-!
Verification of the movie-recommender backend (`src/app.py`).

The file embeds the `/recommend` request handler: catalog loading order,
case-insensitive reference resolution, weight validation, the subprocess
boundary to the scoring engine, and the parsing of the engine's CSV
output.  The scoring engine itself (`recommender.c`, invoked as
`recommender.exe`) is not part of the source snapshot, so it is modelled
from the design document where a claim needs it.
-/

/-- A catalog entry as built by `load_movies` from one CSV row of
`movies.txt`: integer id, title, genre, rational rating, director. -/
structure Movie where
  id : Int
  title : String
  genre : String
  rating : ℚ
  director : String
deriving DecidableEq

/-- A parsed `/recommend` JSON body: the reference name plus three
optional integer weights; `none` models an absent field. -/
structure Request where
  movie_name : String
  genre_weight : Option Int
  rating_weight : Option Int
  director_weight : Option Int
deriving DecidableEq

/-- Outcome of the `subprocess.run` call on the engine executable. -/
inductive EngineOut where
  | completed (returncode : Int) (stdout : String) (stderr : String)
  | timedOut
deriving DecidableEq

/-- The handler's possible responses.  `success` is the HTTP 200 JSON
payload (base movie, ordered recommendations, echoed weights);
`invalidWeight` the 400 weight message naming a dimension; `notFound`
the 404; the remaining constructors are the 500 branches (missing
executable, non-zero exit carrying stderr, timeout, and a Python
exception raised while parsing the engine's output). -/
inductive RecResult where
  | success (base : Movie) (recommendations : List Movie) (gw rw dw : Int)
  | invalidWeight (dim : String)
  | notFound (name : String)
  | engineMissing
  | engineError (msg : String)
  | engineTimeout
  | parseError
deriving DecidableEq

/-- The characters removed by Python `str.strip()`. -/
def pySpace (c : Char) : Bool :=
  c = ' ' || c = '\t' || c = '\n' || c = '\r' || c = '\x0b' || c = '\x0c'

/-- Python `str.strip()`. -/
def pyStrip (s : String) : String :=
  ⟨((s.data.dropWhile pySpace).reverse.dropWhile pySpace).reverse⟩

/-- Python `str.lower()` on the ASCII range used by the catalog. -/
def pyLower (s : String) : String :=
  ⟨s.data.map Char.toLower⟩

/-- Python `str.split(sep)` for a one-character separator, on char
lists; splitting the empty list yields one empty field, as in Python. -/
def splitOnChar (sep : Char) : List Char → List (List Char)
  | [] => [[]]
  | c :: cs =>
    let r := splitOnChar sep cs
    if c = sep then [] :: r
    else
      match r with
      | [] => [[c]]
      | h :: t => (c :: h) :: t

/-- Python `str.split(sep)` on strings. -/
def pySplit (sep : Char) (s : String) : List String :=
  (splitOnChar sep s.data).map (fun l => (⟨l⟩ : String))

/-- Numeric value of a decimal digit character. -/
def digitVal (c : Char) : Nat := c.toNat - 48

/-- Every character of the list is a decimal digit. -/
def allDigits (l : List Char) : Bool := l.all Char.isDigit

/-- Value of a digit list read in base 10. -/
def natVal (l : List Char) : Nat := l.foldl (fun a c => a * 10 + digitVal c) 0

/-- Python `int(...)` on the decimal integer strings relevant here:
surrounding whitespace, an optional sign, then at least one digit. -/
def parseInt (s : String) : Option Int :=
  match (pyStrip s).data with
  | '-' :: rest => if rest ≠ [] ∧ allDigits rest then some (-(natVal rest : Int)) else none
  | '+' :: rest => if rest ≠ [] ∧ allDigits rest then some ((natVal rest : Int)) else none
  | l => if l ≠ [] ∧ allDigits l then some ((natVal l : Int)) else none

/-- Unsigned decimal literal: digits, optionally split by one dot, with
at least one digit present overall. -/
def decCore (l : List Char) : Option ℚ :=
  match splitOnChar '.' l with
  | [ip] => if ip ≠ [] ∧ allDigits ip then some ((natVal ip : ℚ)) else none
  | [ip, fp] =>
    if (ip ≠ [] ∨ fp ≠ []) ∧ allDigits ip ∧ allDigits fp then
      some ((natVal ip : ℚ) + (natVal fp : ℚ) / ((10 : ℚ) ^ fp.length))
    else none
  | _ => none

/-- Python `float(...)` on plain decimal strings (the rating field the
engine emits), modelled exactly over the rationals. -/
def parseDec (s : String) : Option ℚ :=
  match (pyStrip s).data with
  | '-' :: rest => (decCore rest).map (fun q => -q)
  | '+' :: rest => decCore rest
  | l => decCore l

/-- Result of one iteration of the output-parsing loop: the line is
skipped, raises a Python exception, or yields a parsed entry. -/
inductive LineParse where
  | skip
  | fail
  | ok (m : Movie)
deriving DecidableEq

/-- One iteration of the CSV-parsing loop in `recommend` (app.py lines
169-181): empty lines and lines with fewer than five comma-separated
fields are skipped; otherwise fields are read positionally as id,
title, genre, rating, director, and a non-numeric id or rating raises
(`.fail`). -/
def parseLine (line : String) : LineParse :=
  if line = ("") then .skip
  else
    let parts := pySplit ',' line
    if parts.length < 5 then .skip
    else
      match parseInt (parts.getD 0 ("")), parseDec (parts.getD 3 ("")) with
      | some i, some r => .ok ⟨i, parts.getD 1 (""), parts.getD 2 (""), r, parts.getD 4 ("")⟩
      | _, _ => .fail

/-- The entry a line contributes to the recommendation list, if any. -/
def okOf (line : String) : Option Movie :=
  match parseLine line with
  | .ok m => some m
  | _ => none

/-- The whole parsing loop over the engine's stdout lines: a `.fail`
anywhere aborts the request (the `int`/`float` exception propagates to
the surrounding `except` handler), otherwise the parsed entries are
collected in line order. -/
def parseAll : List String → Except Unit (List Movie)
  | [] => .ok []
  | l :: ls =>
    match parseLine l with
    | .skip => parseAll ls
    | .fail => .error ()
    | .ok m => (parseAll ls).map (fun r => m :: r)

/-- `p` starts `l`. -/
def prefixAt : List Char → List Char → Bool
  | [], _ => true
  | _ :: _, [] => false
  | a :: as, b :: bs => a = b && prefixAt as bs

/-- Python's substring test `p in l`: `p` occurs contiguously in `l`. -/
def occursIn (p : List Char) : List Char → Bool
  | [] => p.isEmpty
  | c :: t => prefixAt p (c :: t) || occursIn p t

/-- The `movie_by_name` dictionary lookup: keys are lowercased titles
inserted in load order, so on duplicate lowercased titles the last
loaded entry wins. -/
def lookupByName (catalog : List Movie) (key : String) : Option Movie :=
  catalog.reverse.find? (fun m => pyLower m.title == key)

/-- Reference resolution (app.py lines 134-142): exact case-insensitive
title lookup first, then the first case-insensitive substring match in
load order. -/
def resolveMovie (catalog : List Movie) (name : String) : Option Movie :=
  match lookupByName catalog (pyLower name) with
  | some m => some m
  | none => catalog.find? (fun m => occursIn (pyLower name).data (pyLower m.title).data)

/-- `data.get(weight_key, 5)`: an absent weight defaults to 5. -/
def getWeight (w : Option Int) : Int := w.getD 5

/-- The validation loop (app.py lines 130-132), checked in the order
genre, rating, director; returns the first offending dimension. -/
def validateWeights (g r d : Int) : Option String :=
  if g < 0 ∨ 10 < g then some ("genre")
  else if r < 0 ∨ 10 < r then some ("rating")
  else if d < 0 ∨ 10 < d then some ("director")
  else none

/-- The `/recommend` handler (app.py lines 104-205): strip the name,
default and validate the weights, resolve the reference, check the
engine executable, run the engine, and either surface its failure or
parse its stdout into the response.  `eng` maps the argument vector
(movie id and the three weights) to the observed process outcome. -/
def recommend (catalog : List Movie) (req : Request) (engineExists : Bool)
    (eng : Int → Int → Int → Int → EngineOut) : RecResult :=
  let name := pyStrip req.movie_name
  let gw := getWeight req.genre_weight
  let rw := getWeight req.rating_weight
  let dw := getWeight req.director_weight
  match validateWeights gw rw dw with
  | some dim => .invalidWeight dim
  | none =>
    match resolveMovie catalog name with
    | none => .notFound name
    | some movie =>
      if engineExists then
        match eng movie.id gw rw dw with
        | .timedOut => .engineTimeout
        | .completed rc out err =>
          if rc = 0 then
            match parseAll (pySplit '\n' (pyStrip out)) with
            | .error _ => .parseError
            | .ok recs => .success movie recs gw rw dw
          else .engineError err
      else .engineMissing

/-- Modelled from the spec: `recommender.c` is absent from the source
snapshot; design document section 4.2, categorical similarity — exact
match scores 1, anything else 0. -/
def catSim (a b : String) : ℚ := if a = b then 1 else 0

/-- Modelled from the spec: section 4.2, numeric similarity over the
declared 0-10 rating domain, clamped to the unit interval. -/
def ratingSim (a b : ℚ) : ℚ := max 0 (min 1 (1 - |a - b| / 10))

/-- Modelled from the spec: section 4.3, the unnormalized weighted sum
of the three per-attribute similarities. -/
def engineScore (gw rw dw : Int) (ref c : Movie) : ℚ :=
  (gw : ℚ) * catSim ref.genre c.genre + (rw : ℚ) * ratingSim ref.rating c.rating
    + (dw : ℚ) * catSim ref.director c.director

/-- Insert into a descending-by-score list, after all entries scoring
at least as much, so equal scores keep their earlier relative order. -/
def insertDesc (f : Movie → ℚ) (x : Movie) : List Movie → List Movie
  | [] => [x]
  | y :: ys => if f y < f x then x :: y :: ys else y :: insertDesc f x ys

/-- Modelled from the spec: section 4.4, stable descending sort by
score (left-to-right insertion keeps ties in input order). -/
def rankDesc (f : Movie → ℚ) (l : List Movie) : List Movie :=
  l.foldl (fun acc x => insertDesc f x acc) []

/-- Modelled from the spec: sections 4.4-4.5 — the engine looks the
reference up by id, filters it out, scores the remaining candidates,
ranks them stably by descending score and truncates to K = 5. -/
def engineRecommend (catalog : List Movie) (refId : Int) (gw rw dw : Int) :
    Option (List Movie) :=
  (catalog.find? (fun m => m.id == refId)).map (fun ref =>
    (rankDesc (engineScore gw rw dw ref) (catalog.filter (fun m => !(m.id == refId)))).take 5)

theorem prefixAt_refl (l : List Char) : prefixAt l l = true := by
  induction l with
  | nil => rfl
  | cons a t ih => simp [prefixAt, ih]

theorem occursIn_of_eq {p l : List Char} (h : p = l) : occursIn p l = true := by
  subst h
  cases p with
  | nil => rfl
  | cons c t => simp [occursIn, prefixAt_refl]

theorem occursIn_nil_left (l : List Char) : occursIn [] l = true := by
  cases l with
  | nil => rfl
  | cons c t => simp [occursIn, prefixAt]

theorem occursIn_empty_name (l : List Char) :
    occursIn (pyLower ("")).data l = true :=
  occursIn_nil_left l

theorem lookupByName_eq_none {catalog : List Movie} {key : String} :
    lookupByName catalog key = none ↔ ∀ m ∈ catalog, pyLower m.title ≠ key := by
  simp [lookupByName, List.find?_eq_none, List.mem_reverse]

theorem lookupByName_some {catalog : List Movie} {key : String} {m : Movie}
    (h : lookupByName catalog key = some m) : m ∈ catalog ∧ pyLower m.title = key := by
  have h1 := List.mem_of_find?_eq_some h
  have h2 := List.find?_some h
  rw [List.mem_reverse] at h1
  simp only [beq_iff_eq] at h2
  exact ⟨h1, h2⟩

theorem resolveMovie_of_lookup_some {catalog : List Movie} {name : String} {m : Movie}
    (h : lookupByName catalog (pyLower name) = some m) :
    resolveMovie catalog name = some m := by
  simp [resolveMovie, h]

theorem resolveMovie_of_lookup_none {catalog : List Movie} {name : String}
    (h : lookupByName catalog (pyLower name) = none) :
    resolveMovie catalog name =
      catalog.find? (fun m => occursIn (pyLower name).data (pyLower m.title).data) := by
  simp [resolveMovie, h]

theorem resolveMovie_eq_none {catalog : List Movie} {name : String} :
    resolveMovie catalog name = none ↔
      ∀ m ∈ catalog, occursIn (pyLower name).data (pyLower m.title).data = false := by
  constructor
  · intro h m hm
    unfold resolveMovie at h
    cases hl : lookupByName catalog (pyLower name) with
    | some m2 => rw [hl] at h; exact Option.noConfusion h
    | none =>
      rw [hl] at h
      have := List.find?_eq_none.mp h m hm
      simpa using this
  · intro h
    have hl : lookupByName catalog (pyLower name) = none := by
      rw [lookupByName_eq_none]
      intro m hm heq
      have hocc : occursIn (pyLower name).data (pyLower m.title).data = true :=
        occursIn_of_eq (by rw [heq])
      rw [h m hm] at hocc
      exact Bool.noConfusion hocc
    rw [resolveMovie_of_lookup_none hl, List.find?_eq_none]
    intro m hm
    simp [h m hm]

theorem validateWeights_none_iff (g r d : Int) :
    validateWeights g r d = none ↔
      0 ≤ g ∧ g ≤ 10 ∧ 0 ≤ r ∧ r ≤ 10 ∧ 0 ≤ d ∧ d ≤ 10 := by
  unfold validateWeights
  split_ifs with h1 h2 h3 <;> simp <;> omega

theorem validateWeights_genre {g r d : Int} (h : g < 0 ∨ 10 < g) :
    validateWeights g r d = some ("genre") := by
  unfold validateWeights
  rw [if_pos h]

theorem validateWeights_rating {g r d : Int} (h0 : 0 ≤ g) (h1 : g ≤ 10)
    (h : r < 0 ∨ 10 < r) : validateWeights g r d = some ("rating") := by
  unfold validateWeights
  rw [if_neg (by omega), if_pos h]

theorem validateWeights_director {g r d : Int} (h0 : 0 ≤ g) (h1 : g ≤ 10)
    (h2 : 0 ≤ r) (h3 : r ≤ 10) (h : d < 0 ∨ 10 < d) :
    validateWeights g r d = some ("director") := by
  unfold validateWeights
  rw [if_neg (by omega), if_neg (by omega), if_pos h]

theorem recommend_eq_invalidWeight (catalog : List Movie) (req : Request) (ex : Bool)
    (eng : Int → Int → Int → Int → EngineOut) {dim : String}
    (h : validateWeights (getWeight req.genre_weight) (getWeight req.rating_weight)
        (getWeight req.director_weight) = some dim) :
    recommend catalog req ex eng = RecResult.invalidWeight dim := by
  simp only [recommend, h]

theorem recommend_shape (catalog : List Movie) (req : Request) (ex : Bool)
    (eng : Int → Int → Int → Int → EngineOut)
    (h : validateWeights (getWeight req.genre_weight) (getWeight req.rating_weight)
        (getWeight req.director_weight) = none) :
    (resolveMovie catalog (pyStrip req.movie_name) = none ∧
      recommend catalog req ex eng = RecResult.notFound (pyStrip req.movie_name)) ∨
    ∃ movie, resolveMovie catalog (pyStrip req.movie_name) = some movie ∧
      (recommend catalog req ex eng = RecResult.engineMissing ∨
       recommend catalog req ex eng = RecResult.engineTimeout ∨
       (∃ msg, recommend catalog req ex eng = RecResult.engineError msg) ∨
       recommend catalog req ex eng = RecResult.parseError ∨
       (∃ recs, recommend catalog req ex eng =
          RecResult.success movie recs (getWeight req.genre_weight)
            (getWeight req.rating_weight) (getWeight req.director_weight))) := by
  simp only [recommend, h]
  cases hr : resolveMovie catalog (pyStrip req.movie_name) with
  | none => exact Or.inl ⟨rfl, rfl⟩
  | some movie =>
    refine Or.inr ⟨movie, rfl, ?_⟩
    cases ex with
    | false => simp
    | true =>
      cases he : eng movie.id (getWeight req.genre_weight) (getWeight req.rating_weight)
          (getWeight req.director_weight) with
      | timedOut => simp [he]
      | completed rc out err =>
        by_cases hrc : rc = 0
        · cases hp : parseAll (pySplit '\n' (pyStrip out)) with
          | error e => simp [he, hrc, hp]
          | ok recs => simp [he, hrc, hp]
        · simp [he, hrc]

theorem recommend_ne_invalidWeight {catalog : List Movie} {req : Request} {ex : Bool}
    {eng : Int → Int → Int → Int → EngineOut}
    (h : validateWeights (getWeight req.genre_weight) (getWeight req.rating_weight)
        (getWeight req.director_weight) = none) (dim : String) :
    recommend catalog req ex eng ≠ RecResult.invalidWeight dim := by
  rcases recommend_shape catalog req ex eng h with ⟨_, h1⟩ |
    ⟨m, _, h1 | h1 | ⟨msg, h1⟩ | h1 | ⟨recs, h1⟩⟩ <;> simp [h1]

theorem recommend_ne_notFound {catalog : List Movie} {req : Request} {ex : Bool}
    {eng : Int → Int → Int → Int → EngineOut}
    (h : resolveMovie catalog (pyStrip req.movie_name) ≠ none) (s : String) :
    recommend catalog req ex eng ≠ RecResult.notFound s := by
  cases hv : validateWeights (getWeight req.genre_weight) (getWeight req.rating_weight)
      (getWeight req.director_weight) with
  | some dim => simp [recommend_eq_invalidWeight catalog req ex eng hv]
  | none =>
    rcases recommend_shape catalog req ex eng hv with ⟨hres, h1⟩ |
      ⟨m, _, h1 | h1 | ⟨msg, h1⟩ | h1 | ⟨recs, h1⟩⟩ <;> first
      | exact absurd hres h
      | simp [h1]

/-- Claim C1: `recommend` resolves the reference identifier by first
attempting an exact case-insensitive title match; failing that, it
takes the first case-insensitive substring match in catalog load
order; resolution fails exactly when no title contains the identifier,
and then the handler answers with the `NotFound` error response, never
with a successful empty list. -/
theorem c1_reference_resolution (catalog : List Movie) (req : Request) (ex : Bool)
    (eng : Int → Int → Int → Int → EngineOut) :
    (∀ m, lookupByName catalog (pyLower (pyStrip req.movie_name)) = some m →
        resolveMovie catalog (pyStrip req.movie_name) = some m ∧
        m ∈ catalog ∧ pyLower m.title = pyLower (pyStrip req.movie_name)) ∧
    (lookupByName catalog (pyLower (pyStrip req.movie_name)) = none →
        resolveMovie catalog (pyStrip req.movie_name) =
          catalog.find? (fun m =>
            occursIn (pyLower (pyStrip req.movie_name)).data (pyLower m.title).data)) ∧
    (resolveMovie catalog (pyStrip req.movie_name) = none ↔
        ∀ m ∈ catalog,
          occursIn (pyLower (pyStrip req.movie_name)).data (pyLower m.title).data = false) ∧
    (resolveMovie catalog (pyStrip req.movie_name) = none →
      validateWeights (getWeight req.genre_weight) (getWeight req.rating_weight)
          (getWeight req.director_weight) = none →
      recommend catalog req ex eng = RecResult.notFound (pyStrip req.movie_name)) := by
  refine ⟨?_, ?_, resolveMovie_eq_none, ?_⟩
  · intro m h
    exact ⟨resolveMovie_of_lookup_some h, (lookupByName_some h).1, (lookupByName_some h).2⟩
  · exact resolveMovie_of_lookup_none
  · intro hres hval
    rcases recommend_shape catalog req ex eng hval with ⟨_, h1⟩ |
      ⟨m, hm, _⟩
    · exact h1
    · rw [hres] at hm
      exact Option.noConfusion hm

/-- Witness for C1 at a concrete catalog and request: the identifier
`zz` matches no title, and the handler answers `NotFound`. -/
theorem c1_witness :
    recommend [⟨1, ("Alpha"), ("g"), 5, ("d")⟩] ⟨("zz"), none, none, none⟩ true
      (fun _ _ _ _ => EngineOut.timedOut) = RecResult.notFound (pyStrip ("zz")) :=
  (c1_reference_resolution [⟨1, ("Alpha"), ("g"), 5, ("d")⟩] ⟨("zz"), none, none, none⟩ true
    (fun _ _ _ _ => EngineOut.timedOut)).2.2.2 (by decide) (by decide)

/-- Claim C2: each weight must lie in [0,10]; an out-of-range weight
makes `recommend` answer `InvalidWeight` naming the offending
dimension (genre checked first, then rating, then director, so each
part holds independently of the later dimensions), and a request whose
three effective weights are all in range is never rejected with
`InvalidWeight`. -/
theorem c2_weight_range (catalog : List Movie) (req : Request) (ex : Bool)
    (eng : Int → Int → Int → Int → EngineOut) :
    ((getWeight req.genre_weight < 0 ∨ 10 < getWeight req.genre_weight) →
        recommend catalog req ex eng = RecResult.invalidWeight ("genre")) ∧
    (0 ≤ getWeight req.genre_weight → getWeight req.genre_weight ≤ 10 →
      (getWeight req.rating_weight < 0 ∨ 10 < getWeight req.rating_weight) →
        recommend catalog req ex eng = RecResult.invalidWeight ("rating")) ∧
    (0 ≤ getWeight req.genre_weight → getWeight req.genre_weight ≤ 10 →
      0 ≤ getWeight req.rating_weight → getWeight req.rating_weight ≤ 10 →
      (getWeight req.director_weight < 0 ∨ 10 < getWeight req.director_weight) →
        recommend catalog req ex eng = RecResult.invalidWeight ("director")) ∧
    (0 ≤ getWeight req.genre_weight → getWeight req.genre_weight ≤ 10 →
      0 ≤ getWeight req.rating_weight → getWeight req.rating_weight ≤ 10 →
      0 ≤ getWeight req.director_weight → getWeight req.director_weight ≤ 10 →
      ∀ dim, recommend catalog req ex eng ≠ RecResult.invalidWeight dim) := by
  refine ⟨?_, ?_, ?_, ?_⟩
  · intro h
    exact recommend_eq_invalidWeight catalog req ex eng (validateWeights_genre h)
  · intro h0 h1 h
    exact recommend_eq_invalidWeight catalog req ex eng (validateWeights_rating h0 h1 h)
  · intro h0 h1 h2 h3 h
    exact recommend_eq_invalidWeight catalog req ex eng (validateWeights_director h0 h1 h2 h3 h)
  · intro h0 h1 h2 h3 h4 h5
    exact recommend_ne_invalidWeight
      ((validateWeights_none_iff _ _ _).mpr ⟨h0, h1, h2, h3, h4, h5⟩)

/-- Witness for C2: genre weight 11 with rating weight −1 is rejected
as an invalid genre weight, independent of the rating dimension. -/
theorem c2_witness :
    recommend [] ⟨("A"), some 11, some (-1), none⟩ true
      (fun _ _ _ _ => EngineOut.timedOut) = RecResult.invalidWeight ("genre") :=
  (c2_weight_range [] ⟨("A"), some 11, some (-1), none⟩ true
    (fun _ _ _ _ => EngineOut.timedOut)).1 (Or.inr (by decide))

/-- Claim C3: validation precedes resolution — when some effective
weight is out of range and the reference identifier resolves to no
catalog entry, the reported failure is `InvalidWeight`, never
`NotFound`. -/
theorem c3_validation_before_resolution (catalog : List Movie) (req : Request) (ex : Bool)
    (eng : Int → Int → Int → Int → EngineOut)
    (_hres : resolveMovie catalog (pyStrip req.movie_name) = none)
    (hbad : ¬ (0 ≤ getWeight req.genre_weight ∧ getWeight req.genre_weight ≤ 10 ∧
        0 ≤ getWeight req.rating_weight ∧ getWeight req.rating_weight ≤ 10 ∧
        0 ≤ getWeight req.director_weight ∧ getWeight req.director_weight ≤ 10)) :
    (∃ dim, recommend catalog req ex eng = RecResult.invalidWeight dim) ∧
    ∀ s, recommend catalog req ex eng ≠ RecResult.notFound s := by
  cases hvv : validateWeights (getWeight req.genre_weight) (getWeight req.rating_weight)
      (getWeight req.director_weight) with
  | none => exact absurd ((validateWeights_none_iff _ _ _).mp hvv) hbad
  | some dim =>
    have h1 := recommend_eq_invalidWeight catalog req ex eng hvv
    exact ⟨⟨dim, h1⟩, fun s => by simp [h1]⟩

/-- Witness for C3: an unresolvable name together with genre weight 11
is reported as an invalid weight, not as a missing movie. -/
theorem c3_witness :
    (∃ dim, recommend [⟨1, ("Alpha"), ("g"), 5, ("d")⟩] ⟨("zz"), some 11, none, none⟩ true
        (fun _ _ _ _ => EngineOut.timedOut) = RecResult.invalidWeight dim) ∧
    ∀ s, recommend [⟨1, ("Alpha"), ("g"), 5, ("d")⟩] ⟨("zz"), some 11, none, none⟩ true
        (fun _ _ _ _ => EngineOut.timedOut) ≠ RecResult.notFound s :=
  c3_validation_before_resolution [⟨1, ("Alpha"), ("g"), 5, ("d")⟩]
    ⟨("zz"), some 11, none, none⟩ true (fun _ _ _ _ => EngineOut.timedOut)
    (by decide) (by decide)

theorem recommend_engine {catalog : List Movie} {req : Request}
    {eng : Int → Int → Int → Int → EngineOut} {movie : Movie} {rc : Int} {out err : String}
    (hv : validateWeights (getWeight req.genre_weight) (getWeight req.rating_weight)
        (getWeight req.director_weight) = none)
    (hr : resolveMovie catalog (pyStrip req.movie_name) = some movie)
    (he : eng movie.id (getWeight req.genre_weight) (getWeight req.rating_weight)
        (getWeight req.director_weight) = EngineOut.completed rc out err) :
    recommend catalog req true eng =
      (if rc = 0 then
        match parseAll (pySplit '\n' (pyStrip out)) with
        | .error _ => RecResult.parseError
        | .ok recs => RecResult.success movie recs (getWeight req.genre_weight)
            (getWeight req.rating_weight) (getWeight req.director_weight)
      else RecResult.engineError err) := by
  simp only [recommend, hv, hr, he, if_pos]

/-- Claim C4: engine failure and an empty result stay distinguishable —
a non-zero exit status makes the handler answer with the error response
carrying the engine's stderr and no recommendation list, while a zero
exit with empty output yields the successful response with an empty
recommendations list. -/
theorem c4_failure_vs_empty (catalog : List Movie) (req : Request)
    (eng : Int → Int → Int → Int → EngineOut) (movie : Movie) (rc : Int) (out err : String)
    (hv : validateWeights (getWeight req.genre_weight) (getWeight req.rating_weight)
        (getWeight req.director_weight) = none)
    (hr : resolveMovie catalog (pyStrip req.movie_name) = some movie)
    (he : eng movie.id (getWeight req.genre_weight) (getWeight req.rating_weight)
        (getWeight req.director_weight) = EngineOut.completed rc out err) :
    (rc ≠ 0 → recommend catalog req true eng = RecResult.engineError err) ∧
    (rc = 0 → pyStrip out = ("") →
      recommend catalog req true eng = RecResult.success movie []
        (getWeight req.genre_weight) (getWeight req.rating_weight)
        (getWeight req.director_weight)) := by
  constructor
  · intro hrc
    rw [recommend_engine hv hr he, if_neg hrc]
  · intro hrc hout
    rw [recommend_engine hv hr he, if_pos hrc, hout]
    rfl

/-- Witness for C4 at a concrete catalog: exit status 1 surfaces the
stderr text, exit status 0 with empty stdout yields an empty success. -/
theorem c4_witness :
    recommend [⟨1, ("Alpha"), ("g"), 5, ("d")⟩] ⟨("Alpha"), none, none, none⟩ true
        (fun _ _ _ _ => EngineOut.completed 1 ("") ("boom")) = RecResult.engineError ("boom") ∧
    recommend [⟨1, ("Alpha"), ("g"), 5, ("d")⟩] ⟨("Alpha"), none, none, none⟩ true
        (fun _ _ _ _ => EngineOut.completed 0 ("") ("")) =
      RecResult.success ⟨1, ("Alpha"), ("g"), 5, ("d")⟩ [] 5 5 5 :=
  ⟨(c4_failure_vs_empty [⟨1, ("Alpha"), ("g"), 5, ("d")⟩] ⟨("Alpha"), none, none, none⟩
      (fun _ _ _ _ => EngineOut.completed 1 ("") ("boom")) ⟨1, ("Alpha"), ("g"), 5, ("d")⟩
      1 ("") ("boom") (by decide) (by decide) rfl).1 (by decide),
   (c4_failure_vs_empty [⟨1, ("Alpha"), ("g"), 5, ("d")⟩] ⟨("Alpha"), none, none, none⟩
      (fun _ _ _ _ => EngineOut.completed 0 ("") ("")) ⟨1, ("Alpha"), ("g"), 5, ("d")⟩
      0 ("") ("") (by decide) (by decide) rfl).2 rfl (by decide)⟩

/-- Claim C5: the parsed recommendation list keeps the engine's line
order, and each successfully parsed line is read positionally as id
(integer), title, genre, rating (decimal), director. -/
theorem c5_positional_parsing :
    (∀ lines recs, parseAll lines = Except.ok recs → recs = lines.filterMap okOf) ∧
    (∀ line m, parseLine line = LineParse.ok m →
      5 ≤ (pySplit ',' line).length ∧
      parseInt ((pySplit ',' line).getD 0 ("")) = some m.id ∧
      (pySplit ',' line).getD 1 ("") = m.title ∧
      (pySplit ',' line).getD 2 ("") = m.genre ∧
      parseDec ((pySplit ',' line).getD 3 ("")) = some m.rating ∧
      (pySplit ',' line).getD 4 ("") = m.director) := by
  constructor
  · intro lines
    induction lines with
    | nil =>
      intro recs h
      simp only [parseAll] at h
      cases h
      rfl
    | cons l ls ih =>
      intro recs h
      cases hl : parseLine l with
      | skip =>
        simp only [parseAll, hl] at h
        rw [ih recs h]
        simp [okOf, hl]
      | fail =>
        simp only [parseAll, hl] at h
        exact Except.noConfusion h
      | ok m =>
        simp only [parseAll, hl] at h
        cases hp : parseAll ls with
        | error e =>
          rw [hp] at h
          exact Except.noConfusion h
        | ok r =>
          rw [hp] at h
          cases h
          rw [ih r hp]
          simp [okOf, hl]
  · intro line m h
    simp only [parseLine] at h
    split at h
    · exact LineParse.noConfusion h
    next h0 =>
      split at h
      · exact LineParse.noConfusion h
      next h5 =>
        split at h
        next i r hi hr =>
          cases h
          exact ⟨by omega, hi, rfl, rfl, hr, rfl⟩
        next => exact LineParse.noConfusion h

/-- Witness for C5: one well-formed line surrounded by skipped lines
parses into the expected entry, in order. -/
theorem c5_witness :
    ([(⟨1, ("T"), ("G"), 8, ("D")⟩ : Movie)] : List Movie) =
      ([(""), ("1,T,G,8,D"), ("x")] : List String).filterMap okOf :=
  c5_positional_parsing.1 [(""), ("1,T,G,8,D"), ("x")]
    [(⟨1, ("T"), ("G"), 8, ("D")⟩ : Movie)] rfl

/-- Claim C6: `recommend` is deterministic — identical requests against
the same catalog snapshot and the same engine behaviour give identical
resolution, identical validation outcome and identical output. -/
theorem c6_deterministic (catalog : List Movie) (r1 r2 : Request) (ex : Bool)
    (eng : Int → Int → Int → Int → EngineOut) (h : r1 = r2) :
    resolveMovie catalog (pyStrip r1.movie_name) =
      resolveMovie catalog (pyStrip r2.movie_name) ∧
    validateWeights (getWeight r1.genre_weight) (getWeight r1.rating_weight)
        (getWeight r1.director_weight) =
      validateWeights (getWeight r2.genre_weight) (getWeight r2.rating_weight)
        (getWeight r2.director_weight) ∧
    recommend catalog r1 ex eng = recommend catalog r2 ex eng := by
  subst h
  exact ⟨rfl, rfl, rfl⟩

/-- Witness for C6 at a concrete request. -/
theorem c6_witness :
    recommend [⟨1, ("Alpha"), ("g"), 5, ("d")⟩] ⟨("Alpha"), none, none, none⟩ true
        (fun _ _ _ _ => EngineOut.completed 0 ("") ("")) =
      recommend [⟨1, ("Alpha"), ("g"), 5, ("d")⟩] ⟨("Alpha"), none, none, none⟩ true
        (fun _ _ _ _ => EngineOut.completed 0 ("") ("")) :=
  (c6_deterministic [⟨1, ("Alpha"), ("g"), 5, ("d")⟩] ⟨("Alpha"), none, none, none⟩
    ⟨("Alpha"), none, none, none⟩ true (fun _ _ _ _ => EngineOut.completed 0 ("") (""))
    rfl).2.2

theorem mem_insertDesc {f : Movie → ℚ} {x y : Movie} {l : List Movie} :
    y ∈ insertDesc f x l ↔ y = x ∨ y ∈ l := by
  induction l with
  | nil => simp [insertDesc]
  | cons z zs ih =>
    simp only [insertDesc]
    split
    · simp [List.mem_cons]
    · simp [List.mem_cons, ih]
      tauto

theorem length_insertDesc (f : Movie → ℚ) (x : Movie) (l : List Movie) :
    (insertDesc f x l).length = l.length + 1 := by
  induction l with
  | nil => rfl
  | cons z zs ih =>
    simp only [insertDesc]
    split <;> simp [ih]

theorem length_foldl_insertDesc (f : Movie → ℚ) (l acc : List Movie) :
    (List.foldl (fun acc x => insertDesc f x acc) acc l).length = acc.length + l.length := by
  induction l generalizing acc with
  | nil => simp
  | cons x xs ih =>
    rw [List.foldl_cons, ih, length_insertDesc]
    simp only [List.length_cons]
    omega

theorem mem_foldl_insertDesc (f : Movie → ℚ) (l acc : List Movie) (y : Movie) :
    y ∈ List.foldl (fun acc x => insertDesc f x acc) acc l ↔ y ∈ acc ∨ y ∈ l := by
  induction l generalizing acc with
  | nil => simp
  | cons x xs ih =>
    rw [List.foldl_cons, ih]
    simp [mem_insertDesc]
    tauto

theorem length_rankDesc (f : Movie → ℚ) (l : List Movie) :
    (rankDesc f l).length = l.length := by
  simp [rankDesc, length_foldl_insertDesc]

theorem mem_rankDesc (f : Movie → ℚ) (l : List Movie) (y : Movie) :
    y ∈ rankDesc f l ↔ y ∈ l := by
  simp [rankDesc, mem_foldl_insertDesc]

theorem length_filter_lt_of_mem {l : List Movie} {p : Movie → Bool} {x : Movie}
    (hx : x ∈ l) (hpx : p x = false) : (l.filter p).length < l.length := by
  induction l with
  | nil => cases hx
  | cons z zs ih =>
    rcases List.mem_cons.mp hx with rfl | hx2
    · have := List.length_filter_le p zs
      simp [List.filter_cons, hpx]
      omega
    · cases hpz : p z <;> simp [List.filter_cons, hpz] <;> have := ih hx2 <;> omega

/-- Claim C7: for valid weight vectors and a resolvable reference id,
the engine's recommendation list never contains the reference entry,
and its length never exceeds the catalog size minus one.  The engine is
modelled from the spec (sections 4.2-4.5) because `recommender.c` is
not in the source snapshot. -/
theorem c7_reference_excluded (catalog : List Movie) (refId gw rw dw : Int)
    (ref : Movie) (res : List Movie)
    (_hgw0 : 0 ≤ gw) (_hgw1 : gw ≤ 10) (_hrw0 : 0 ≤ rw) (_hrw1 : rw ≤ 10)
    (_hdw0 : 0 ≤ dw) (_hdw1 : dw ≤ 10)
    (hfind : catalog.find? (fun m => m.id == refId) = some ref)
    (hres : engineRecommend catalog refId gw rw dw = some res) :
    ref ∉ res ∧ res.length ≤ catalog.length - 1 := by
  have href_mem : ref ∈ catalog := List.mem_of_find?_eq_some hfind
  have href_id : ref.id = refId := by simpa using List.find?_some hfind
  have hres2 : res = (rankDesc (engineScore gw rw dw ref)
      (catalog.filter (fun m => !(m.id == refId)))).take 5 := by
    unfold engineRecommend at hres
    rw [hfind] at hres
    simpa using hres.symm
  constructor
  · intro hmem
    rw [hres2] at hmem
    have h1 := List.mem_of_mem_take hmem
    rw [mem_rankDesc] at h1
    have h2 := (List.mem_filter.mp h1).2
    simp [href_id] at h2
  · rw [hres2]
    have h3 : (catalog.filter (fun m => !(m.id == refId))).length < catalog.length :=
      length_filter_lt_of_mem href_mem (by simp [href_id])
    rw [List.length_take, length_rankDesc]
    omega

/-- Witness for C7 at a two-entry catalog with reference id 1. -/
theorem c7_witness :
    (⟨1, ("A"), ("g"), 5, ("d")⟩ : Movie) ∉ [(⟨2, ("B"), ("g"), 5, ("d")⟩ : Movie)] ∧
    ([(⟨2, ("B"), ("g"), 5, ("d")⟩ : Movie)] : List Movie).length ≤
      ([⟨1, ("A"), ("g"), 5, ("d")⟩, ⟨2, ("B"), ("g"), 5, ("d")⟩] : List Movie).length - 1 :=
  c7_reference_excluded [⟨1, ("A"), ("g"), 5, ("d")⟩, ⟨2, ("B"), ("g"), 5, ("d")⟩] 1 5 5 5
    ⟨1, ("A"), ("g"), 5, ("d")⟩ [⟨2, ("B"), ("g"), 5, ("d")⟩]
    (by decide) (by decide) (by decide) (by decide) (by decide) (by decide)
    (by decide) (by decide)

/-- Counterexample to C8 as stated: with a catalog whose second entry
has the empty title, the empty reference identifier is resolved by the
exact-match dictionary to that entry, not by the substring fallback to
the first entry in load order (it does still resolve, so no NotFound). -/
theorem c8_cex :
    resolveMovie [⟨1, ("Alpha"), ("g"), 5, ("d")⟩, ⟨2, (""), ("g"), 5, ("d")⟩] ("") ≠
      ([⟨1, ("Alpha"), ("g"), 5, ("d")⟩, ⟨2, (""), ("g"), 5, ("d")⟩] : List Movie).head? ∧
    resolveMovie [⟨1, ("Alpha"), ("g"), 5, ("d")⟩, ⟨2, (""), ("g"), 5, ("d")⟩] ("") ≠
      none := by
  decide

/-- Claim C8 as amended: for a non-empty catalog, an empty or
whitespace-only reference identifier never yields `NotFound`; and when
no catalog entry has an empty title, the substring fallback resolves
it to the first catalog entry in load order. -/
theorem c8_empty_name (catalog : List Movie) (req : Request) (ex : Bool)
    (eng : Int → Int → Int → Int → EngineOut)
    (hne : catalog ≠ []) (hname : pyStrip req.movie_name = ("")) :
    resolveMovie catalog ("") ≠ none ∧
    (∀ s, recommend catalog req ex eng ≠ RecResult.notFound s) ∧
    ((∀ m ∈ catalog, m.title ≠ ("")) → resolveMovie catalog ("") = catalog.head?) := by
  have h1 : resolveMovie catalog ("") ≠ none := by
    cases hl : lookupByName catalog (pyLower ("")) with
    | some m => simp [resolveMovie_of_lookup_some hl]
    | none =>
      rw [resolveMovie_of_lookup_none hl]
      cases catalog with
      | nil => exact absurd rfl hne
      | cons c t =>
        rw [List.find?_cons_of_pos t (occursIn_empty_name (pyLower c.title).data)]
        simp
  refine ⟨h1, ?_, ?_⟩
  · intro s
    apply recommend_ne_notFound
    rw [hname]
    exact h1
  · intro hti
    have hl : lookupByName catalog (pyLower ("")) = none := by
      rw [lookupByName_eq_none]
      intro m hm heq
      apply hti m hm
      have hd : m.title.data.map Char.toLower = [] := by
        simpa [pyLower] using congrArg String.data heq
      have hd2 : m.title.data = [] := List.map_eq_nil_iff.mp hd
      exact String.ext hd2
    rw [resolveMovie_of_lookup_none hl]
    cases catalog with
    | nil => exact absurd rfl hne
    | cons c t =>
      rw [List.find?_cons_of_pos t (occursIn_empty_name (pyLower c.title).data)]
      rfl

/-- Witness for C8 (amended) at a one-entry catalog and a
whitespace-only identifier. -/
theorem c8_witness :
    resolveMovie [⟨1, ("Alpha"), ("g"), 5, ("d")⟩] ("") ≠ none ∧
    (∀ s, recommend [⟨1, ("Alpha"), ("g"), 5, ("d")⟩] ⟨("  "), none, none, none⟩ true
        (fun _ _ _ _ => EngineOut.completed 0 ("") ("")) ≠ RecResult.notFound s) ∧
    ((∀ m ∈ ([⟨1, ("Alpha"), ("g"), 5, ("d")⟩] : List Movie), m.title ≠ ("")) →
      resolveMovie [⟨1, ("Alpha"), ("g"), 5, ("d")⟩] ("") =
        ([⟨1, ("Alpha"), ("g"), 5, ("d")⟩] : List Movie).head?) :=
  c8_empty_name [⟨1, ("Alpha"), ("g"), 5, ("d")⟩] ⟨("  "), none, none, none⟩ true
    (fun _ _ _ _ => EngineOut.completed 0 ("") ("")) (by decide) (by decide)

theorem recommend_invalidWeight_inv {catalog : List Movie} {req : Request} {ex : Bool}
    {eng : Int → Int → Int → Int → EngineOut} {dim : String}
    (h : recommend catalog req ex eng = RecResult.invalidWeight dim) :
    validateWeights (getWeight req.genre_weight) (getWeight req.rating_weight)
      (getWeight req.director_weight) = some dim := by
  cases hv : validateWeights (getWeight req.genre_weight) (getWeight req.rating_weight)
      (getWeight req.director_weight) with
  | some d2 =>
    have h2 := recommend_eq_invalidWeight catalog req ex eng hv
    rw [h2] at h
    injection h with h3
    rw [h3]
  | none => exact absurd h (recommend_ne_invalidWeight hv dim)

theorem validateWeights_some {g r d : Int} {dim : String}
    (h : validateWeights g r d = some dim) :
    (dim = ("genre") ∧ (g < 0 ∨ 10 < g)) ∨
    (dim = ("rating") ∧ 0 ≤ g ∧ g ≤ 10 ∧ (r < 0 ∨ 10 < r)) ∨
    (dim = ("director") ∧ 0 ≤ g ∧ g ≤ 10 ∧ 0 ≤ r ∧ r ≤ 10 ∧ (d < 0 ∨ 10 < d)) := by
  unfold validateWeights at h
  split_ifs at h with h1 h2 h3
  · injection h with h4
    exact Or.inl ⟨h4.symm, h1⟩
  · injection h with h4
    exact Or.inr (Or.inl ⟨h4.symm, by omega, by omega, h2⟩)
  · injection h with h4
    exact Or.inr (Or.inr ⟨h4.symm, by omega, by omega, by omega, by omega, h3⟩)

/-- Claim C9: an absent weight field defaults to 5, so an omitted
dimension never triggers `InvalidWeight` for that dimension, and a
request omitting all three weights always passes weight validation. -/
theorem c9_default_weights (catalog : List Movie) (req : Request) (ex : Bool)
    (eng : Int → Int → Int → Int → EngineOut) :
    getWeight none = 5 ∧
    (req.genre_weight = none →
      recommend catalog req ex eng ≠ RecResult.invalidWeight ("genre")) ∧
    (req.rating_weight = none →
      recommend catalog req ex eng ≠ RecResult.invalidWeight ("rating")) ∧
    (req.director_weight = none →
      recommend catalog req ex eng ≠ RecResult.invalidWeight ("director")) ∧
    (req.genre_weight = none → req.rating_weight = none → req.director_weight = none →
      ∀ dim, recommend catalog req ex eng ≠ RecResult.invalidWeight dim) := by
  refine ⟨rfl, ?_, ?_, ?_, ?_⟩
  · intro hg hc
    rcases validateWeights_some (recommend_invalidWeight_inv hc) with
      ⟨_, hbad⟩ | ⟨hdim, _⟩ | ⟨hdim, _⟩
    · rw [hg] at hbad
      simp [getWeight] at hbad
    · exact absurd hdim (by decide)
    · exact absurd hdim (by decide)
  · intro hr hc
    rcases validateWeights_some (recommend_invalidWeight_inv hc) with
      ⟨hdim, _⟩ | ⟨_, _, _, hbad⟩ | ⟨hdim, _⟩
    · exact absurd hdim (by decide)
    · rw [hr] at hbad
      simp [getWeight] at hbad
    · exact absurd hdim (by decide)
  · intro hd hc
    rcases validateWeights_some (recommend_invalidWeight_inv hc) with
      ⟨hdim, _⟩ | ⟨hdim, _⟩ | ⟨_, _, _, _, _, hbad⟩
    · exact absurd hdim (by decide)
    · exact absurd hdim (by decide)
    · rw [hd] at hbad
      simp [getWeight] at hbad
  · intro hg hr hd dim hc
    rcases validateWeights_some (recommend_invalidWeight_inv hc) with
      ⟨_, hbad⟩ | ⟨_, _, _, hbad⟩ | ⟨_, _, _, _, _, hbad⟩
    · rw [hg] at hbad
      simp [getWeight] at hbad
    · rw [hr] at hbad
      simp [getWeight] at hbad
    · rw [hd] at hbad
      simp [getWeight] at hbad

/-- Witness for C9: the all-defaults request is not rejected. -/
theorem c9_witness :
    recommend [] ⟨("A"), none, none, none⟩ true (fun _ _ _ _ => EngineOut.timedOut) ≠
      RecResult.invalidWeight ("genre") :=
  (c9_default_weights [] ⟨("A"), none, none, none⟩ true
    (fun _ _ _ _ => EngineOut.timedOut)).2.2.2.2 rfl rfl rfl ("genre")

/-- Counterexample to C10 as stated: the engine output `x,y,z,w,v` is a
single line with five comma-separated fields, yet the handler answers
with an error (a Python `int`/`float` exception), not with a
recommendations list containing exactly the well-formed lines. -/
theorem c10_cex :
    5 ≤ (pySplit ',' ("x,y,z,w,v")).length ∧
    parseLine ("x,y,z,w,v") = LineParse.fail ∧
    recommend [⟨1, ("Alpha"), ("g"), 5, ("d")⟩] ⟨("Alpha"), none, none, none⟩ true
      (fun _ _ _ _ => EngineOut.completed 0 ("x,y,z,w,v") ("")) = RecResult.parseError := by
  refine ⟨by decide, by decide, by decide⟩

/-- Claim C10 as amended: lines that are empty or split into fewer
than five comma-separated fields are silently skipped; when no line
fails numeric parsing the returned list contains exactly the parsed
well-formed lines in order; and a line with at least five fields whose
id or rating does not parse aborts the whole request with an error
instead of being skipped. -/
theorem c10_malformed_lines :
    (∀ line, line = ("") ∨ (pySplit ',' line).length < 5 →
      parseLine line = LineParse.skip) ∧
    (∀ lines, (∀ l ∈ lines, parseLine l ≠ LineParse.fail) →
      parseAll lines = Except.ok (lines.filterMap okOf)) ∧
    (∀ lines, (∃ l ∈ lines, parseLine l = LineParse.fail) →
      parseAll lines = Except.error ()) := by
  refine ⟨?_, ?_, ?_⟩
  · intro line h
    rcases h with rfl | h5
    · rfl
    · by_cases h0 : line = ("")
      · subst h0
        rfl
      · simp only [parseLine, if_neg h0, if_pos h5]
  · intro lines
    induction lines with
    | nil => intro _; rfl
    | cons l ls ih =>
      intro h
      have hl2 := h l (List.mem_cons_self l ls)
      cases hl : parseLine l with
      | skip =>
        simp only [parseAll, hl]
        rw [ih (fun x hx => h x (List.mem_cons_of_mem _ hx))]
        simp [okOf, hl]
      | fail => exact absurd hl hl2
      | ok m =>
        simp only [parseAll, hl]
        rw [ih (fun x hx => h x (List.mem_cons_of_mem _ hx))]
        simp [okOf, hl, Except.map]
  · intro lines
    induction lines with
    | nil =>
      rintro ⟨l, hl, _⟩
      cases hl
    | cons l ls ih =>
      rintro ⟨x, hx, hfail⟩
      rcases List.mem_cons.mp hx with rfl | hx2
      · simp only [parseAll, hfail]
      · cases hl : parseLine l with
        | skip =>
          simp only [parseAll, hl]
          exact ih ⟨x, hx2, hfail⟩
        | fail => simp only [parseAll, hl]
        | ok m =>
          simp only [parseAll, hl]
          rw [ih ⟨x, hx2, hfail⟩]
          rfl

/-- Witness for C10 (amended): skipped lines plus one parsed line. -/
theorem c10_witness :
    parseAll [(""), ("a,b"), ("1,T,G,8,D")] =
      Except.ok (([(""), ("a,b"), ("1,T,G,8,D")] : List String).filterMap okOf) :=
  c10_malformed_lines.2.1 [(""), ("a,b"), ("1,T,G,8,D")] (by decide)

example : pySplit ',' ("a,,b") = [("a"), (""), ("b")] := by decide
example : parseInt ("" ) = none := by decide
example : parseInt (" -12 ") = some (-12) := by decide
example : parseDec ("x") = none := by decide
example : parseLine ("1,T,G,8,D") = .ok ⟨1, ("T"), ("G"), (8 : ℚ), ("D")⟩ := by decide
example : parseLine ("x,y,z,w,v") = .fail := by decide
example : parseLine ("a,b") = .skip := by decide
example : occursIn [] ([('a' : Char)]) = true := by decide
example : resolveMovie [⟨1, ("Alpha"), ("g"), 5, ("d")⟩] ("ALPHA") =
    some ⟨1, ("Alpha"), ("g"), 5, ("d")⟩ := by decide
example : resolveMovie [⟨1, ("Alpha"), ("g"), 5, ("d")⟩] ("lph") =
    some ⟨1, ("Alpha"), ("g"), 5, ("d")⟩ := by decide
example : resolveMovie [⟨1, ("Alpha"), ("g"), 5, ("d")⟩] ("zz") = none := by decide
example : engineRecommend [⟨1, ("A"), ("g"), 5, ("d")⟩, ⟨2, ("B"), ("g"), 5, ("d")⟩] 1 5 5 5 =
    some [⟨2, ("B"), ("g"), 5, ("d")⟩] := by decide
